import Mathlib

/-!
Verification development for the DbgModelClientEx.h client library
(microsoft/WinDbg-Libraries, src/DbgModelCppLib/DbgModelClientEx.h).

The relevant C++ machinery is shallowly embedded:
  * HRESULT codes are 32-bit patterns modelled as `Nat`;
  * the exception taxonomy of the library is the inductive `Exn`, and
    `Details::Exceptions::ReturnResult` (lines 276-343) is `ReturnResult`;
  * the lifetime guard (`DataModelReferenceInfo` / `ThrowIfDetached`,
    lines 6112-6127) is a boolean flag threaded through adapter states;
  * `BoundIterator` (lines 6133-6276), `BoundIterableBase::GetIterator`
    (lines 6314-6361), `BoundIterableIndexableBase::GetAt/SetAt`
    (lines 6435-6489) and `BoundIterableWithIndexable::SetAt`
    (lines 6584-6614) are explicit state-passing functions;
  * the signature analysis templates (lines 5134-5308), the unpackers
    (lines 5312-5357 and 7831-7852) and `InvokeFunctionFromPack`
    (lines 5557-5599) operate on lists of slot types;
  * the intrinsic boxers (lines 4728-4841, 6853-6884), the
    enum boxer `UnderlyingTypeBoxObject` (lines 7287-7299) and the
    `std::optional` boxer (lines 7449-7477) operate on a variant model.

The dynamic-object-model host is an external collaborator; its value
store is modelled at the boundary: `CreateIntrinsicObject` stores the
variant verbatim and `GetIntrinsicValueAs` returns it verbatim when the
requested variant type matches the stored one.
-/

namespace DbgModel

/-! ## HRESULT codes (32-bit patterns, as used by the header) -/

def S_OK : Nat := 0
def E_FAIL : Nat := 0x80004005
def E_INVALIDARG : Nat := 0x80070057
def E_OUTOFMEMORY : Nat := 0x8007000E
def E_BOUNDS : Nat := 0x8000000B
def E_NOTIMPL : Nat := 0x80004001
def E_UNEXPECTED : Nat := 0x8000FFFF
def E_ILLEGAL_METHOD_CALL : Nat := 0x8000000E
def E_NOT_SET : Nat := 0x80070490

/-! ## Exception taxonomy

The header's exception classes (lines 80-132):
`hr_exception` derives from `std::exception`; `object_detached`,
`unexpected_error`, `illegal_operation` and `not_set` derive from
`std::runtime_error`; `not_implemented` derives from `std::logic_error`.
The constructors below are exactly the distinctions the catch cascade of
`Details::Exceptions::ReturnResult` can make; `objectDetached` is kept
separate (it is caught by the `std::exception&` handler since no earlier
handler matches a `std::runtime_error`). `stdException` stands for any
other `std::exception`, `unknownExn` for a non-`std::exception` throw
caught by `catch(...)`. -/

inductive Exn where
  | invalidArgument (msg : String)
  | badAlloc
  | rangeError (msg : String)
  | notImplemented (msg : String)
  | unexpectedError (msg : String)
  | hrException (hr : Nat) (msg : String)
  | illegalOperation (msg : String)
  | notSet (msg : String)
  | objectDetached (msg : String)
  | stdException (msg : String)
  | unknownExn
  deriving DecidableEq, Repr

/-- The default message of `ClientEx::object_detached()` (line 99). -/
def detachedMsg : String := "Attempt to access a detached object"

/-- `if (ppError != nullptr && !errMsg.empty())` — the error object is
attached only when a non-empty message was captured (lines 333-340).
The model assumes `ppError` is supplied and `CreateErrorObject`
(a host service) succeeds. -/
def attachMsg (msg : String) : Option String :=
  if msg = "" then none else some msg

/-- `Details::Exceptions::ReturnResult` (lines 276-343): rethrow the
captured exception and translate it through the catch cascade into an
HRESULT plus an optionally attached error object carrying the message.
`badAlloc` and `unknownExn` capture no message, so no error object is
attached for them. -/
def ReturnResult : Exn → Nat × Option String
  | .invalidArgument msg => (E_INVALIDARG, attachMsg msg)
  | .badAlloc => (E_OUTOFMEMORY, none)
  | .rangeError msg => (E_BOUNDS, attachMsg msg)
  | .notImplemented msg => (E_NOTIMPL, attachMsg msg)
  | .unexpectedError msg => (E_UNEXPECTED, attachMsg msg)
  | .hrException hr msg => (hr, attachMsg msg)
  | .illegalOperation msg => (E_ILLEGAL_METHOD_CALL, attachMsg msg)
  | .notSet msg => (E_NOT_SET, attachMsg msg)
  | .objectDetached msg => (E_FAIL, attachMsg msg)
  | .stdException msg => (E_FAIL, attachMsg msg)
  | .unknownExn => (E_FAIL, none)

/-! ## The value-marshaling (box/unbox) engine

`VARIANT` payloads and the variant-type tags of `BaseIntrinsicTypeTraits`
(lines 4728-4806).  A variant stores the raw value written by
`IntrinsicTypeTraits::FillVariant` (lines 4810-4816); for `bool` the
payload is `VARIANT_TRUE = -1` or `VARIANT_FALSE = 0` (lines 4828-4840). -/

inductive VarType where
  | vtI1 | vtUI1 | vtI2 | vtUI2 | vtI4 | vtUI4 | vtI8 | vtUI8 | vtBool
  deriving DecidableEq, Repr

structure Variant where
  vt : VarType
  payload : Int
  deriving DecidableEq, Repr

/-- `ModelObjectKind` tags as returned by the host's `GetKind`. -/
inductive ModelObjectKind where
  | objectIntrinsic | objectNoValue | objectSynthetic
  deriving DecidableEq, Repr

/-- A dynamic value: the host's opaque `IModelObject`, restricted to the
shapes the boxing claims exercise.  `intrinsic` stores the variant passed
to `CreateIntrinsicObject` verbatim (host boundary, spec section 6);
`noValue` is the result of `Object::CreateNoValue()`. -/
inductive DynValue where
  | intrinsic (v : Variant)
  | noValue
  | synthetic
  deriving DecidableEq, Repr

/-- The host's per-value kind tag (`IModelObject::GetKind`). -/
def DynValue.getKind : DynValue → ModelObjectKind
  | .intrinsic _ => .objectIntrinsic
  | .noValue => .objectNoValue
  | .synthetic => .objectSynthetic

/-- Host boundary (spec section 6): `GetIntrinsicValueAs` returns the
stored variant verbatim when the requested representation matches the
stored one; requests on a non-intrinsic object fail with `E_INVALIDARG`,
which `CheckHr` rethrows as `std::invalid_argument` (lines 236-243).
Cross-type numeric host conversions are not exercised by any claim and
are modelled as the same failure. -/
def getIntrinsicValueAs (d : DynValue) (req : VarType) : Except Exn Variant :=
  match d with
  | .intrinsic v => if v.vt = req then .ok v else .error (.invalidArgument "Illegal argument")
  | _ => .error (.invalidArgument "Illegal argument")

/-- The integral intrinsic native types with an `IntrinsicTypeTraits`
specialization (lines 4730-4788).  `float`/`double` are outside this
integral model. -/
inductive IntrinsicTy where
  | tyChar | tyUChar | tyShort | tyUShort | tyInt | tyUInt
  | tyLong | tyULong | tyInt64 | tyUInt64
  deriving DecidableEq, Repr

/-- The `VariantType` field of `BaseIntrinsicTypeTraits` per type.  Note
the source maps both `long` and `unsigned long` to `VT_UI4`
(lines 4766-4776). -/
def IntrinsicTy.vt : IntrinsicTy → VarType
  | .tyChar => .vtI1
  | .tyUChar => .vtUI1
  | .tyShort => .vtI2
  | .tyUShort => .vtUI2
  | .tyInt => .vtI4
  | .tyUInt => .vtUI4
  | .tyLong => .vtUI4
  | .tyULong => .vtUI4
  | .tyInt64 => .vtI8
  | .tyUInt64 => .vtUI8

/-- Smallest representable value of the C++ type (MSVC widths: long is
32-bit). -/
def IntrinsicTy.minVal : IntrinsicTy → Int
  | .tyChar => -128
  | .tyUChar => 0
  | .tyShort => -32768
  | .tyUShort => 0
  | .tyInt => -2147483648
  | .tyUInt => 0
  | .tyLong => -2147483648
  | .tyULong => 0
  | .tyInt64 => -9223372036854775808
  | .tyUInt64 => 0

/-- Largest representable value of the C++ type. -/
def IntrinsicTy.maxVal : IntrinsicTy → Int
  | .tyChar => 127
  | .tyUChar => 255
  | .tyShort => 32767
  | .tyUShort => 65535
  | .tyInt => 2147483647
  | .tyUInt => 4294967295
  | .tyLong => 2147483647
  | .tyULong => 4294967295
  | .tyInt64 => 9223372036854775807
  | .tyUInt64 => 18446744073709551615

/-- A value of the C++ type `t` is an integer in its representable
range. -/
def inRange (t : IntrinsicTy) (x : Int) : Prop :=
  t.minVal ≤ x ∧ x ≤ t.maxVal

instance (t : IntrinsicTy) (x : Int) : Decidable (inRange t x) := by
  unfold inRange; infer_instance

/-- `BoxObjectIntrinsic<T>::Box` (lines 6856-6870): fill a variant with
the raw value (`FillVariant` is a bit-copy into the variant payload) and
create an intrinsic object through the host. -/
def boxIntegral (t : IntrinsicTy) (x : Int) : DynValue :=
  .intrinsic ⟨t.vt, x⟩

/-- `BoxObjectIntrinsic<T>::Unbox` (lines 6872-6883): ask the host for
the value as the trait's variant type, then `ExtractFromVariant` reads
the payload back as `T` (a bit-copy, the identity for a matching type). -/
def unboxIntegral (t : IntrinsicTy) (d : DynValue) : Except Exn Int := do
  let v ← getIntrinsicValueAs d t.vt
  pure v.payload

/-- `IntrinsicTypeTraits<bool>::FillVariant` stores
`VARIANT_TRUE = -1` / `VARIANT_FALSE = 0` (lines 4828-4834). -/
def boxBool (b : Bool) : DynValue :=
  .intrinsic ⟨.vtBool, if b then -1 else 0⟩

/-- `IntrinsicTypeTraits<bool>::ExtractFromVariant` compares the payload
with `VARIANT_TRUE` (lines 4836-4840). -/
def unboxBool (d : DynValue) : Except Exn Bool := do
  let v ← getIntrinsicValueAs d .vtBool
  pure (v.payload == -1)

/-- An enumeration type, identified by its declared underlying integral
type. -/
structure EnumTy where
  underlying : IntrinsicTy
  deriving DecidableEq, Repr

/-- `UnderlyingTypeBoxObject<TEnum>::Box` (lines 7290-7293): cast to the
underlying integral type and box that. -/
def boxEnum (et : EnumTy) (x : Int) : DynValue :=
  boxIntegral et.underlying x

/-- `UnderlyingTypeBoxObject<TEnum>::Unbox` (lines 7295-7298): unbox the
underlying integral type and cast back. -/
def unboxEnum (et : EnumTy) (d : DynValue) : Except Exn Int :=
  unboxIntegral et.underlying d

/-- `BoxObject<std::optional<T>>::Box` (lines 7452-7462): a present
value boxes through `T`'s boxer, an empty optional boxes to the
no-value marker. -/
def boxOptIntegral (t : IntrinsicTy) : Option Int → DynValue
  | some x => boxIntegral t x
  | none => DynValue.noValue

/-- `BoxObject<std::optional<T>>::Unbox` (lines 7464-7476): a no-value
kind always yields empty, anything else delegates to `T`'s unboxer. -/
def unboxOptIntegral (t : IntrinsicTy) (d : DynValue) : Except Exn (Option Int) :=
  if d.getKind = .objectNoValue then
    .ok none
  else
    (unboxIntegral t d).map some

/-! ## Lifetime guard

`DataModelReferenceInfo` (lines 6112-6117) is a shared boolean
`TypeIsLive`, constructed `true`.  `ThrowIfDetached` (lines 6121-6127)
raises `object_detached` when the flag is false.
`BaseDataModel::~BaseDataModel` (lines 8937-8955) sets the flag to
`false` at binding teardown; nothing else writes it. -/

/-- `DataModelReferenceInfo() : TypeIsLive(true)` (line 6114). -/
def newLifetimeFlag : Bool := true

/-- `ThrowIfDetached` (lines 6121-6127). -/
def throwIfDetached (flag : Bool) : Except Exn Unit :=
  if flag then .ok () else .error (.objectDetached detachedMsg)

/-- Events that can touch the shared `TypeIsLive` flag: the binding's
destructor (`m_dataRef->TypeIsLive = false;`, line 8953) writes it; every
adapter operation merely reads it through `ThrowIfDetached`. -/
inductive GuardEvent where
  | teardown
  | adapterUse
  deriving DecidableEq, Repr

/-- Effect of one event on the shared flag. -/
def flagStep (b : Bool) : GuardEvent → Bool
  | .teardown => false
  | .adapterUse => b

/-! ## Iterators (`BoundIterator`, lines 6133-6276)

The iterator state is the cursor triple (begin, current, end) plus the
sticky `m_thrown` slot and the captured link reference.  The underlying
native sequence between begin and end is modelled as a list whose entries
are either the projected element value or the exception raised when the
traversal step produces that element (dereference, projection, or boxing
may throw). -/

deriving instance DecidableEq for Except

structure IterState where
  flag : Bool
  seq : List (Except Exn Int)
  pos : Nat
  thrown : Option Exn
  deriving DecidableEq, Repr

/-- Outcome of one `GetNext` call: `ok` is `S_OK` with the boxed element
and its synthetic linear index (for random-access cursors,
`IndexerTraits<TVal, TIter, true>::CreateIndexers` reports
`itCur - itBegin`, lines 5086-5098); `endOfSeq` is the direct
`return E_BOUNDS` at the end cursor (line 6225); `converted` is an
exception translated by `ReturnResult` (lines 6247-6251). -/
inductive StepOutcome where
  | ok (v : Int) (idx : Nat)
  | endOfSeq
  | converted (hr : Nat) (errObj : Option String)
  deriving DecidableEq, Repr

/-- The translated form of a raised exception at an adapter boundary. -/
def convertedOf (e : Exn) : StepOutcome :=
  .converted (ReturnResult e).1 (ReturnResult e).2

/-- `BoundIterator::GetNext` (lines 6188-6254): check the lifetime flag,
re-raise a sticky failure, report `E_BOUNDS` at the end cursor, otherwise
produce the projected element and its index and advance the cursor; any
exception is stored in `m_thrown` and converted by `ReturnResult`. -/
def getNext (st : IterState) : StepOutcome × IterState :=
  if st.flag = false then
    let e := Exn.objectDetached detachedMsg
    (convertedOf e, { st with thrown := some e })
  else
    match st.thrown with
    | some e => (convertedOf e, { st with thrown := some e })
    | none =>
      match st.seq[st.pos]? with
      | none => (.endOfSeq, st)
      | some (.error e) => (convertedOf e, { st with thrown := some e })
      | some (.ok v) => (.ok v st.pos, { st with pos := st.pos + 1 })

/-- `BoundIterator::Reset` (lines 6182-6186): `m_itCur = m_itBegin;
return S_OK;` — no lifetime check, no touch of `m_thrown`. -/
def resetIter (st : IterState) : Nat × IterState :=
  (S_OK, { st with pos := 0 })

/-! ## Iterable adapter (`BoundIterableBase`, lines 6278-6399) -/

/-- A bound iterable: the shared lifetime flag and the generator
projection.  The generator projection is a fixed function of the bound
object, so each `GetGenerator` call (line 6384-6387) reproduces the same
native sequence; `gen` is that sequence. -/
structure Iterable where
  flag : Bool
  gen : List (Except Exn Int)
  deriving DecidableEq, Repr

/-- `BoundIterableBase::GetIterator` (lines 6314-6361): check the
lifetime flag, re-acquire the native sequence through the generator
projection, and build a fresh `BoundIterator` whose current cursor is the
sequence's begin cursor and whose sticky slot is empty.  A raised
exception is converted by `ReturnResult` (line 6357); the error case
carries the exception for inspection. -/
def getIterator (it : Iterable) : Except Exn IterState :=
  match throwIfDetached it.flag with
  | .error e => .error e
  | .ok _ => .ok ⟨it.flag, it.gen, 0, none⟩

/-- Drain an iterator: step until the first non-`ok` outcome, collecting
the produced (element, index) pairs.  Fuel-based; `drain` supplies enough
fuel to exhaust the sequence. -/
def drainAux : Nat → IterState → List (Int × Nat)
  | 0, _ => []
  | fuel + 1, st =>
    match getNext st with
    | (.ok v i, st2) => (v, i) :: drainAux fuel st2
    | _ => []

/-- Fully drain a fresh traversal. -/
def drain (st : IterState) : List (Int × Nat) :=
  drainAux (st.seq.length + 1) st

/-- The expected enumeration of a native sequence: values paired with
their linear offsets starting at `i`. -/
def enumFrom (i : Nat) : List Int → List (Int × Nat)
  | [] => []
  | v :: rest => (v, i) :: enumFrom (i + 1) rest

/-! ## Linear indexer (`BoundIterableIndexableBase`, lines 6401-6499) -/

/-- Outcome of `GetAt`: `ok` is `S_OK` with the boxed projected element;
`hr` is a direct HRESULT return (`E_INVALIDARG` at line 6452, `E_BOUNDS`
at line 6465); `converted` is an exception translated by `ReturnResult`
(line 6476); `derefEnd` marks the execution that dereferences the end
cursor (`*(itBegin + stIdx)` with `stIdx` equal to the distance between
the cursors), which is undefined behavior in the source. -/
inductive GetAtOutcome where
  | ok (v : DynValue)
  | hr (code : Nat)
  | converted (hr : Nat) (errObj : Option String)
  | derefEnd
  deriving DecidableEq, Repr

def convertedGetAt (e : Exn) : GetAtOutcome :=
  .converted (ReturnResult e).1 (ReturnResult e).2

/-- `BoundIterableIndexableBase::GetAt` (lines 6435-6480) for a native
random-access sequence of `Int` bound with the default (identity) item
projection: check the lifetime flag, require exactly one indexer, compute
`delta = end - begin`, return `E_BOUNDS` when `stIdx > delta`
(line 6463 — note the strict comparison), otherwise dereference
`itBegin + stIdx` and box the projected element.  The index argument has
already been extracted as `VT_UI8` by the host. -/
def getAtLinear (flag : Bool) (elems : List Int) (indexerCount : Nat) (stIdx : Nat) :
    GetAtOutcome :=
  if flag = false then
    convertedGetAt (.objectDetached detachedMsg)
  else if indexerCount ≠ 1 then
    .hr E_INVALIDARG
  else
    let delta := elems.length
    if stIdx > delta then
      .hr E_BOUNDS
    else
      match elems[stIdx]? with
      | some v => .ok (boxIntegral .tyInt v)
      | none => .derefEnd

/-- `BoundIterableIndexableBase::SetAt` (lines 6482-6489):
unconditionally `E_NOTIMPL` — the linear indexer offers no
write-through. -/
def setAtLinear (_flag : Bool) (_elems : List Int) : Nat :=
  E_NOTIMPL

/-! ## Custom indexer (`BoundIterableWithIndexable`, lines 6501-6629) -/

/-- A bound iterable with caller-supplied `GetAt`/`SetAt` projections.
The native functors are abstract: they may raise. -/
structure CustomIndexable where
  flag : Bool
  dims : Nat
  getAtF : List Nat → Except Exn Int
  setAtF : List Nat → Int → Except Exn Unit

/-- Outcome of the custom `SetAt`. -/
inductive SetAtOutcome where
  | ok
  | hr (code : Nat)
  | converted (hr : Nat) (errObj : Option String)
  deriving DecidableEq, Repr

def convertedSetAt (e : Exn) : SetAtOutcome :=
  .converted (ReturnResult e).1 (ReturnResult e).2

/-- `BoundIterableWithIndexable::SetAt` (lines 6584-6614): check the
lifetime flag, validate the indexer count against the dimensionality,
then unbox the value and invoke the bound setter functor (through
`InvokeFunctionFromPack`); exceptions are converted by `ReturnResult`. -/
def customSetAt (ci : CustomIndexable) (indexers : List Nat) (value : Int) :
    SetAtOutcome :=
  if ci.flag = false then
    convertedSetAt (.objectDetached detachedMsg)
  else if indexers.length ≠ ci.dims then
    .hr E_INVALIDARG
  else
    match ci.setAtF indexers value with
    | .ok _ => .ok
    | .error e => convertedSetAt e

/-! ## Signature analysis (lines 5134-5308)

A bound function's parameter list (after the leading context object and
any fixed extra arguments, which `InvokeFunctionFromPack` skips via
`packIgnoreCount`) is a list of slot types: an ordinary static type
(`plain`), a `std::optional<T>` (`opt`), or the two components of the
trailing variadic capture pair — `size_t` (`varSize`) and `Object *`
(`varPtr`). -/

inductive ArgTy where
  | plain | opt | varSize | varPtr
  deriving DecidableEq, Repr

/-- `IsVariableArgumentPosition_v<TArgs...>` (lines 5134-5135): true only
for the exact two-type pack `(size_t, Object *)`. -/
def isVariableArgumentPosition : List ArgTy → Bool
  | [.varSize, .varPtr] => true
  | _ => false

/-- `HasVariableArgumentHelper2` (lines 5137-5138): walk to the last two
types of the pack and test `IsVariableArgumentPosition` on them. -/
def hvaWalk : ArgTy → ArgTy → List ArgTy → Bool
  | a, b, [] => isVariableArgumentPosition [a, b]
  | _, b, c :: rest => hvaWalk b c rest

/-- `HasVariableArguments` (lines 5139-5142): false for packs of size 0
or 1, otherwise whether the pack terminates in `(size_t, Object *)`. -/
def hasVariableArguments : List ArgTy → Bool
  | a :: b :: rest => hvaWalk a b rest
  | _ => false

/-- `IsOptionalArgument_v<T>` (lines 5162-5163). -/
def isOptionalArgument : ArgTy → Bool
  | .opt => true
  | _ => false

/-- `IsNonOptionalArgument_v<T>` (lines 5164-5165). -/
def isNonOptionalArgument (t : ArgTy) : Bool :=
  !isOptionalArgument t

/-- `HasNonOptionalArguments_v<TArgs...>` (lines 5175-5203): the pack
contains a non-`std::optional` type, unless that type is the terminal
`(size_t, Object *)` pair.  The primary template makes the empty pack
`true` (line 5175); the recursion never reaches it. -/
def hasNonOptionalArguments : List ArgTy → Bool
  | [] => true
  | [t] => isNonOptionalArgument t
  | t :: u :: rest =>
    if isVariableArgumentPosition (t :: u :: rest) then false
    else if isNonOptionalArgument t then true
    else hasNonOptionalArguments (u :: rest)

/-- The value part of `HasOptionalArguments_v<TArgs...>`
(lines 5213-5230). -/
def hasOptionalArguments : List ArgTy → Bool
  | [] => false
  | [t] => isOptionalArgument t
  | t :: u :: rest => isOptionalArgument t || hasOptionalArguments (u :: rest)

/-- The conjunction of every `static_assert` fired while instantiating
`HasOptionalArguments<TArgs...>` (line 5223): at each position holding a
`std::optional`, everything after it must be free of non-optional types
(modulo a terminal variadic pair).  These assertions are evaluated when
the binding template is instantiated — at binding declaration, before any
call can exist. -/
def optionalOrderingAsserts : List ArgTy → Bool
  | [] => true
  | [_] => true
  | t :: u :: rest =>
    (!isOptionalArgument t || !hasNonOptionalArguments (u :: rest)) &&
      optionalOrderingAsserts (u :: rest)

/-- `FirstOptionalArgumentPosition_v<TArgs...>` (lines 5238-5244): the
0-based position of the first `std::optional`, or the pack size if there
is none. -/
def firstOptionalArgumentPosition : List ArgTy → Nat
  | [] => 0
  | .opt :: _ => 0
  | _ :: rest => 1 + firstOptionalArgumentPosition rest

/-- `PackMatchingSize_v<TArgs...>` (lines 5264-5295): the number of
required dynamic arguments — the first optional position if any optional
exists, else the pack size minus two if the signature is variadic, else
the pack size. -/
def packMatchingSize (l : List ArgTy) : Nat :=
  if hasOptionalArguments l then firstOptionalArgumentPosition l
  else if hasVariableArguments l then l.length - 2
  else l.length

/-- Declaring a binding instantiates the analysis templates; a signature
whose ordering assertions fail does not compile, so no binding (and hence
no call) ever exists for it.  A compiling signature yields its analysis
results. -/
def declareBinding (l : List ArgTy) : Option (Nat × Nat × Bool) :=
  if optionalOrderingAsserts l then
    some (packMatchingSize l, l.length, hasVariableArguments l)
  else
    none

/-! ## Argument unpacking (lines 5312-5357 and 7831-7852) -/

/-- The value a static slot receives from the dynamic pack.  `plainV` /
`optV` carry `none` when the slot keeps its default-constructed value
(the dynamic pack had no argument at that position); `varCountV` and
`varViewV` are the two components of the variadic capture pair, the view
being the offset into the original argument array (`none` = the
default-constructed null pointer). -/
inductive SlotVal where
  | plainV (v : Option Nat)
  | optV (v : Option Nat)
  | varCountV (n : Nat)
  | varViewV (view : Option Nat)
  deriving DecidableEq, Repr

/-- What `RegularUnpacker::UnpackInto` assigns to slot `i` when
`i < packSize` (lines 7845-7849): the unboxed `i`-th dynamic argument.
Arguments are modelled as already-unboxed naturals. -/
def regularSlot (t : ArgTy) (v : Option Nat) : SlotVal :=
  match t with
  | .opt => .optV v
  | _ => .plainV v

/-- The default-constructed value a slot keeps when the unpacker does not
touch it (lines 7837-7844): `std::nullopt` for an optional slot, a
default-constructed value otherwise. -/
def defaultSlot (t : ArgTy) : SlotVal :=
  match t with
  | .opt => .optV none
  | _ => .plainV none

/-- The `Unpacker` recursion (lines 5320-5357, 7831-7852), walking the
slot index `i`: when exactly the variadic pair remains and it is a
variable-argument position, `VariableUnpacker::UnpackInto`
(lines 5325-5340) either leaves both slots default (when `i >= packSize`)
or stores the remaining count `packSize - i` and a zero-copy view at
offset `i` into the original argument array; otherwise
`RegularUnpacker::UnpackInto` assigns slot `i` from argument `i` when
present and recurses. -/
def unpackSlotsAux (args : List Nat) : Nat → List ArgTy → List SlotVal
  | i, [.varSize, .varPtr] =>
    if i ≥ args.length then [.varCountV 0, .varViewV none]
    else [.varCountV (args.length - i), .varViewV (some i)]
  | i, t :: rest =>
    (if i < args.length then regularSlot t args[i]? else defaultSlot t) ::
      unpackSlotsAux args (i + 1) rest
  | _, [] => []

/-- `UnpackValues` (lines 5405-5412) on the post-ignore slot list. -/
def unpackSlots (args : List Nat) (l : List ArgTy) : List SlotVal :=
  unpackSlotsAux args 0 l

/-- `InvokeFunctionFromPack` (lines 5557-5599), count validation and
unpacking, on the post-ignore slot list `l`: with
`minPackSize = PackMatchingSize_WithIgnore_v`,
`maxStaticPack = sizeof...(TArgs) - packIgnoreCount` and
`isVarArgs = HasVariableArguments_v`, a pack size below the minimum, or
above the maximum without varargs, throws `std::invalid_argument`
(lines 5590-5593); otherwise the arguments are unpacked and the native
function is invoked (the invocation itself is the caller's functor). -/
def invokeFromPack (l : List ArgTy) (args : List Nat) : Except Exn (List SlotVal) :=
  if args.length < packMatchingSize l ||
      (args.length > l.length && !hasVariableArguments l) then
    .error (.invalidArgument "Illegal number of arguments to method call")
  else
    .ok (unpackSlots args l)

/-- The canonical classified signature: `k` required slots, `m` optional
slots, and optionally the trailing variadic capture pair. -/
def canonSig (k m : Nat) (va : Bool) : List ArgTy :=
  List.replicate k .plain ++ List.replicate m .opt ++
    (if va then [.varSize, .varPtr] else [])

/-- Specification helper: the run of `k` regular slots of type `t`
starting at slot index `i`, each receiving the dynamic argument at its
own index when present (and its default otherwise). -/
def slotRun (args : List Nat) (t : ArgTy) : Nat → Nat → List SlotVal
  | _, 0 => []
  | i, k + 1 => regularSlot t args[i]? :: slotRun args t (i + 1) k

/-! ## Helper lemmas -/

/-- An `IterState` whose sticky slot already holds `e` is unchanged by
storing `e` again. -/
lemma iterState_restore (st : IterState) (e : Exn) (h : st.thrown = some e) :
    { st with thrown := some e } = st := by
  cases st
  simp_all

/-- A failed iterator is a fixed point of `GetNext`, re-raising the
stored failure. -/
lemma getNext_thrown (st : IterState) (e : Exn) (hf : st.flag = true)
    (ht : st.thrown = some e) : getNext st = (convertedOf e, st) := by
  obtain ⟨f, s, p, th⟩ := st
  simp only at hf ht
  subst hf ht
  simp [getNext]

/-- An iterator whose cursor reached the end cursor is a fixed point of
`GetNext`, reporting `E_BOUNDS`. -/
lemma getNext_atEnd (st : IterState) (hf : st.flag = true)
    (ht : st.thrown = none) (he : st.seq[st.pos]? = none) :
    getNext st = (.endOfSeq, st) := by
  obtain ⟨f, s, p, th⟩ := st
  simp only at hf ht he
  subst hf ht
  simp [getNext, he]

/-- `flagStep` never brings a dead flag back to life. -/
lemma flagStep_dead (ev : GuardEvent) : flagStep false ev = false := by
  cases ev <;> rfl

/-- Once dead, the flag stays dead over any event sequence. -/
lemma foldl_flagStep_dead (l : List GuardEvent) :
    List.foldl flagStep false l = false := by
  induction l with
  | nil => rfl
  | cons ev rest ih => rw [List.foldl_cons, flagStep_dead]; exact ih

/-! ## C8 — exception conversion at the host boundary -/

/-- C8: No raised condition ever crosses a host-facing adapter boundary
unconverted: the modelled entry points (`GetNext`, `GetIterator`, the
custom `SetAt`) only ever report success, a direct status code, or an
exception translated by `ReturnResult`; and `ReturnResult` maps
`invalid_argument` to `E_INVALIDARG`, `bad_alloc` to `E_OUTOFMEMORY`,
`range_error` to `E_BOUNDS`, `not_implemented` to `E_NOTIMPL`,
`unexpected_error` to `E_UNEXPECTED`, `illegal_operation` to
`E_ILLEGAL_METHOD_CALL`, `not_set` to `E_NOT_SET`, `hr_exception` to its
carried status code, and any other exception to the generic failure code
`E_FAIL`, attaching an error object with the message when one is
available (`attachMsg`). -/
theorem C8_boundary_conversion :
    (∀ msg, ReturnResult (.invalidArgument msg) = (E_INVALIDARG, attachMsg msg)) ∧
    ReturnResult .badAlloc = (E_OUTOFMEMORY, none) ∧
    (∀ msg, ReturnResult (.rangeError msg) = (E_BOUNDS, attachMsg msg)) ∧
    (∀ msg, ReturnResult (.notImplemented msg) = (E_NOTIMPL, attachMsg msg)) ∧
    (∀ msg, ReturnResult (.unexpectedError msg) = (E_UNEXPECTED, attachMsg msg)) ∧
    (∀ msg, ReturnResult (.illegalOperation msg) = (E_ILLEGAL_METHOD_CALL, attachMsg msg)) ∧
    (∀ msg, ReturnResult (.notSet msg) = (E_NOT_SET, attachMsg msg)) ∧
    (∀ hr msg, ReturnResult (.hrException hr msg) = (hr, attachMsg msg)) ∧
    (∀ msg, ReturnResult (.objectDetached msg) = (E_FAIL, attachMsg msg)) ∧
    (∀ msg, ReturnResult (.stdException msg) = (E_FAIL, attachMsg msg)) ∧
    ReturnResult .unknownExn = (E_FAIL, none) ∧
    (∀ st : IterState,
      (∃ v i st2, getNext st = (.ok v i, st2)) ∨
      (∃ st2, getNext st = (.endOfSeq, st2)) ∨
      (∃ e st2, getNext st = (convertedOf e, st2))) ∧
    (∀ it : Iterable,
      (∃ st, getIterator it = .ok st) ∨ (∃ e, getIterator it = .error e)) ∧
    (∀ ci idxs v,
      customSetAt ci idxs v = .ok ∨ (∃ c, customSetAt ci idxs v = .hr c) ∨
      (∃ e, customSetAt ci idxs v = convertedSetAt e)) := by
  refine ⟨fun _ => rfl, rfl, fun _ => rfl, fun _ => rfl, fun _ => rfl,
    fun _ => rfl, fun _ => rfl, fun _ _ => rfl, fun _ => rfl, fun _ => rfl,
    rfl, ?_, ?_, ?_⟩
  · intro st
    unfold getNext
    by_cases hf : st.flag = false
    · simp only [hf, if_true]
      exact Or.inr (Or.inr ⟨_, _, rfl⟩)
    · simp only [hf, if_false]
      match ht : st.thrown with
      | some e => exact Or.inr (Or.inr ⟨e, _, rfl⟩)
      | none =>
        match hg : st.seq[st.pos]? with
        | none => exact Or.inr (Or.inl ⟨_, rfl⟩)
        | some (.error e) => exact Or.inr (Or.inr ⟨e, _, rfl⟩)
        | some (.ok v) => exact Or.inl ⟨v, st.pos, _, rfl⟩
  · intro it
    unfold getIterator throwIfDetached
    by_cases hf : it.flag
    · simp only [hf, if_true]
      exact Or.inl ⟨_, rfl⟩
    · simp only [hf, if_false]
      exact Or.inr ⟨_, rfl⟩
  · intro ci idxs v
    unfold customSetAt
    by_cases hf : ci.flag = false
    · rw [if_pos hf]
      exact Or.inr (Or.inr ⟨_, rfl⟩)
    · rw [if_neg hf]
      by_cases hd : idxs.length ≠ ci.dims
      · rw [if_pos hd]
        exact Or.inr (Or.inl ⟨_, rfl⟩)
      · rw [if_neg hd]
        match hs : ci.setAtF idxs v with
        | .ok u => exact Or.inl rfl
        | .error e => exact Or.inr (Or.inr ⟨e, rfl⟩)

/-! ## C1 — linear indexer bounds check -/

/-- C1: For a live native random-access sequence bound with default
iteration and linear indexing, `GetAt` with a single indexer returns the
boxed projection of element `i` for every `i < n`; for `i > n` it returns
the range failure `E_BOUNDS`; **but** for `i = n` (position 3 of
`[10, 20, 30]`) the strict comparison `stIdx > delta` at line 6463 lets
the index through and the adapter dereferences the end cursor
(`*(itBegin + n)`, undefined behavior) instead of raising the range
failure the claim and the spec describe. -/
theorem C1_getAt_bounds_offByOne :
    (∀ (elems : List Int) (i : Nat) (hi : i < elems.length),
        getAtLinear true elems 1 i = .ok (boxIntegral .tyInt elems[i])) ∧
    (∀ (elems : List Int) (i : Nat), elems.length < i →
        getAtLinear true elems 1 i = .hr E_BOUNDS) ∧
    (∀ elems : List Int, getAtLinear true elems 1 elems.length = .derefEnd) ∧
    getAtLinear true [10, 20, 30] 1 0 = .ok (boxIntegral .tyInt 10) ∧
    getAtLinear true [10, 20, 30] 1 1 = .ok (boxIntegral .tyInt 20) ∧
    getAtLinear true [10, 20, 30] 1 2 = .ok (boxIntegral .tyInt 30) ∧
    getAtLinear true [10, 20, 30] 1 3 = .derefEnd ∧
    GetAtOutcome.derefEnd ≠ .hr E_BOUNDS := by
  refine ⟨?_, ?_, ?_, by decide, by decide, by decide, by decide, by decide⟩
  · intro elems i hi
    have h1 : ¬ (i > elems.length) := by omega
    simp [getAtLinear, h1, List.getElem?_eq_getElem hi]
  · intro elems i hi
    simp [getAtLinear, hi]
  · intro elems
    simp [getAtLinear, List.getElem?_eq_none (le_refl elems.length)]

/-- Closed instantiation of `C1_getAt_bounds_offByOne`. -/
theorem C1_getAt_bounds_offByOne_witness :
    getAtLinear true [10, 20, 30] 1 2 = .ok (boxIntegral .tyInt 30) ∧
    getAtLinear true [10, 20, 30] 1 4 = .hr E_BOUNDS ∧
    getAtLinear true [10, 20, 30] 1 3 = .derefEnd :=
  ⟨C1_getAt_bounds_offByOne.1 [10, 20, 30] 2 (by decide),
   C1_getAt_bounds_offByOne.2.1 [10, 20, 30] 4 (by decide),
   C1_getAt_bounds_offByOne.2.2.1 [10, 20, 30]⟩

/-! ## C2 — lifetime guard / detachment -/

/-- C2: Once the shared `TypeIsLive` flag is cleared by the binding's
teardown, every adapter operation that would dereference the native
instance — iterator acquisition, iterator step, indexed get, indexed
set — re-checks the flag immediately before use and raises
detached-object instead of dereferencing (the outcome is a constant,
independent of the native data and functors), consistently on every use;
the flag starts live, is cleared only by teardown, and once dead never
reverses over any event sequence. -/
theorem C2_lifetime_guard :
    (∀ it : Iterable, it.flag = false →
        getIterator it = .error (.objectDetached detachedMsg)) ∧
    (∀ st : IterState, st.flag = false →
        (getNext st).1 = convertedOf (.objectDetached detachedMsg)) ∧
    (∀ (elems : List Int) (ic idx : Nat),
        getAtLinear false elems ic idx = convertedGetAt (.objectDetached detachedMsg)) ∧
    (∀ ci : CustomIndexable, ci.flag = false → ∀ idxs v,
        customSetAt ci idxs v = convertedSetAt (.objectDetached detachedMsg)) ∧
    newLifetimeFlag = true ∧
    (∀ b, flagStep b .teardown = false) ∧
    (∀ ev, flagStep false ev = false) ∧
    (∀ b ev, flagStep b ev = true → b = true) ∧
    (∀ pre post, List.foldl flagStep true (pre ++ GuardEvent.teardown :: post) = false) := by
  refine ⟨?_, ?_, ?_, ?_, rfl, fun _ => rfl, flagStep_dead, ?_, ?_⟩
  · intro it h
    simp [getIterator, throwIfDetached, h]
  · intro st h
    simp [getNext, h]
  · intro elems ic idx
    simp [getAtLinear]
  · intro ci h idxs v
    unfold customSetAt
    rw [if_pos h]
  · intro b ev hbe
    cases ev with
    | teardown => exact absurd hbe (by simp [flagStep])
    | adapterUse => exact hbe
  · intro pre post
    rw [List.foldl_append, List.foldl_cons]
    have hstep : flagStep (List.foldl flagStep true pre) .teardown = false := rfl
    rw [hstep, foldl_flagStep_dead]

/-- Closed instantiation of `C2_lifetime_guard`. -/
theorem C2_lifetime_guard_witness :
    getIterator ⟨false, [.ok 1]⟩ = .error (.objectDetached detachedMsg) ∧
    (getNext ⟨false, [.ok 1], 0, none⟩).1 = convertedOf (.objectDetached detachedMsg) ∧
    getAtLinear false [10, 20, 30] 1 0 = convertedGetAt (.objectDetached detachedMsg) ∧
    customSetAt ⟨false, 1, fun _ => .ok 0, fun _ _ => .ok ()⟩ [0] 42 =
      convertedSetAt (.objectDetached detachedMsg) ∧
    List.foldl flagStep true
      [GuardEvent.adapterUse, GuardEvent.teardown, GuardEvent.adapterUse] = false :=
  ⟨C2_lifetime_guard.1 ⟨false, [.ok 1]⟩ rfl,
   C2_lifetime_guard.2.1 ⟨false, [.ok 1], 0, none⟩ rfl,
   C2_lifetime_guard.2.2.1 [10, 20, 30] 1 0,
   C2_lifetime_guard.2.2.2.1 ⟨false, 1, fun _ => .ok 0, fun _ _ => .ok ()⟩ rfl [0] 42,
   C2_lifetime_guard.2.2.2.2.2.2.2.2 [GuardEvent.adapterUse] [GuardEvent.adapterUse]⟩

/-! ## C4 — sticky failure and sticky end of iteration -/

/-- C4: An `IterationState` is sticky in failure and at its end: while
the binding stays live, once a `GetNext` step has stored a failure in
`m_thrown`, every subsequent `GetNext` on that iterator re-raises the
identical stored failure without advancing the cursor (the state is a
fixed point), and once the cursor has reached the end cursor every
subsequent step again reports end-of-sequence — the iteration never
resurrects. -/
theorem C4_sticky_iteration :
    (∀ (st : IterState) (e : Exn), st.flag = true → st.thrown = some e →
        getNext st = (convertedOf e, st)) ∧
    (∀ (st : IterState) (e : Exn) (n : Nat), st.flag = true → st.thrown = some e →
        getNext ((fun s => (getNext s).2)^[n] st) = (convertedOf e, st)) ∧
    (∀ st : IterState, st.flag = true → st.thrown = none → st.seq[st.pos]? = none →
        getNext st = (.endOfSeq, st)) ∧
    (∀ (st : IterState) (n : Nat), st.flag = true → st.thrown = none →
        st.seq[st.pos]? = none →
        getNext ((fun s => (getNext s).2)^[n] st) = (.endOfSeq, st)) := by
  refine ⟨getNext_thrown, ?_, getNext_atEnd, ?_⟩
  · intro st e n hf ht
    induction n with
    | zero => simpa using getNext_thrown st e hf ht
    | succ k ih =>
      rw [Function.iterate_succ_apply]
      have hfix : (getNext st).2 = st := by
        simp [getNext_thrown st e hf ht]
      rw [hfix]
      exact ih
  · intro st n hf ht he
    induction n with
    | zero => simpa using getNext_atEnd st hf ht he
    | succ k ih =>
      rw [Function.iterate_succ_apply]
      have hfix : (getNext st).2 = st := by
        simp [getNext_atEnd st hf ht he]
      rw [hfix]
      exact ih

/-- Closed instantiation of `C4_sticky_iteration`. -/
theorem C4_sticky_iteration_witness :
    getNext ⟨true, [.ok 5], 0, some (.rangeError "stuck")⟩ =
      (convertedOf (.rangeError "stuck"), ⟨true, [.ok 5], 0, some (.rangeError "stuck")⟩) ∧
    getNext ((fun s => (getNext s).2)^[3] ⟨true, [.ok 5], 0, some (.rangeError "stuck")⟩) =
      (convertedOf (.rangeError "stuck"), ⟨true, [.ok 5], 0, some (.rangeError "stuck")⟩) ∧
    getNext ⟨true, [], 0, none⟩ = (.endOfSeq, ⟨true, [], 0, none⟩) ∧
    getNext ((fun s => (getNext s).2)^[2] ⟨true, [], 0, none⟩) =
      (.endOfSeq, ⟨true, [], 0, none⟩) :=
  ⟨C4_sticky_iteration.1 _ _ rfl rfl,
   C4_sticky_iteration.2.1 _ _ 3 rfl rfl,
   C4_sticky_iteration.2.2.1 _ rfl rfl rfl,
   C4_sticky_iteration.2.2.2 _ 2 rfl rfl rfl⟩

/-! ## C10 — Reset semantics -/

/-- C10: `Reset` unconditionally succeeds and rewinds the current cursor
to the begin cursor: it neither checks the `LifetimeFlag` nor clears the
sticky `m_thrown` slot, so it reports `S_OK` even on a detached or failed
iterator, and a previously failed (still live) iterator re-raises its
stored failure on the next `GetNext` even after a successful `Reset`. -/
theorem C10_reset_semantics :
    (∀ st : IterState, resetIter st = (S_OK, { st with pos := 0 })) ∧
    (∀ st : IterState, (resetIter st).1 = S_OK ∧
        (resetIter st).2.thrown = st.thrown ∧ (resetIter st).2.flag = st.flag ∧
        (resetIter st).2.seq = st.seq ∧ (resetIter st).2.pos = 0) ∧
    (∀ (st : IterState) (e : Exn), st.flag = true → st.thrown = some e →
        getNext (resetIter st).2 = (convertedOf e, (resetIter st).2)) := by
  refine ⟨fun _ => rfl, fun st => ⟨rfl, rfl, rfl, rfl, rfl⟩, ?_⟩
  intro st e hf ht
  exact getNext_thrown _ e (by simpa [resetIter] using hf) (by simpa [resetIter] using ht)

/-- Closed instantiation of `C10_reset_semantics`. -/
theorem C10_reset_semantics_witness :
    resetIter ⟨false, [], 7, some (.rangeError "dead")⟩ =
      (S_OK, ⟨false, [], 0, some (.rangeError "dead")⟩) ∧
    getNext (resetIter ⟨true, [.ok 1], 1, some (.rangeError "x")⟩).2 =
      (convertedOf (.rangeError "x"),
       (resetIter ⟨true, [.ok 1], 1, some (.rangeError "x")⟩).2) :=
  ⟨C10_reset_semantics.1 ⟨false, [], 7, some (.rangeError "dead")⟩,
   C10_reset_semantics.2.2 ⟨true, [.ok 1], 1, some (.rangeError "x")⟩ _ rfl rfl⟩

/-! ## C5 — boxing round-trip -/

/-- Unbox-after-box on an integral intrinsic: the boxer stores the raw
value in a variant of the trait's type and the unboxer reads it back
through a matching-type host request. -/
lemma unbox_box_integral (t : IntrinsicTy) (x : Int) :
    unboxIntegral t (boxIntegral t x) = .ok x := by
  simp [unboxIntegral, boxIntegral, getIntrinsicValueAs]

/-- C5: For every supported integral native type `T` and every value `x`
of `T` — including the boundary values 0, min, max and −1 for signed
types — `Unbox(Box(x)) = x`: for intrinsic scalars, for `bool`, for
enumerations boxed through their declared underlying integer type, and
for `std::optional<T>` (a present value round-trips through `T`'s boxer,
an empty optional round-trips through the no-value marker). -/
theorem C5_roundtrip :
    (∀ (t : IntrinsicTy) (x : Int), inRange t x →
        unboxIntegral t (boxIntegral t x) = .ok x) ∧
    (∀ b : Bool, unboxBool (boxBool b) = .ok b) ∧
    (∀ (et : EnumTy) (x : Int), inRange et.underlying x →
        unboxEnum et (boxEnum et x) = .ok x) ∧
    (∀ (t : IntrinsicTy) (xo : Option Int), (∀ x ∈ xo, inRange t x) →
        unboxOptIntegral t (boxOptIntegral t xo) = .ok xo) := by
  refine ⟨fun t x _ => unbox_box_integral t x, ?_, ?_, ?_⟩
  · intro b
    cases b <;> simp [unboxBool, boxBool, getIntrinsicValueAs]
  · intro et x _
    exact unbox_box_integral et.underlying x
  · intro t xo _
    cases xo with
    | none => simp [unboxOptIntegral, boxOptIntegral, DynValue.getKind]
    | some x =>
      have hbox : unboxIntegral t (boxIntegral t x) = .ok x := unbox_box_integral t x
      have hk : (boxIntegral t x).getKind = ModelObjectKind.objectIntrinsic := rfl
      simp [unboxOptIntegral, boxOptIntegral, hk, hbox, Except.map]

/-- Closed instantiation of `C5_roundtrip` at boundary values. -/
theorem C5_roundtrip_witness :
    unboxIntegral .tyChar (boxIntegral .tyChar 0) = .ok 0 ∧
    unboxIntegral .tyChar (boxIntegral .tyChar (-128)) = .ok (-128) ∧
    unboxIntegral .tyChar (boxIntegral .tyChar 127) = .ok 127 ∧
    unboxIntegral .tyChar (boxIntegral .tyChar (-1)) = .ok (-1) ∧
    unboxIntegral .tyInt64 (boxIntegral .tyInt64 (-9223372036854775808)) =
      .ok (-9223372036854775808) ∧
    unboxIntegral .tyUInt64 (boxIntegral .tyUInt64 18446744073709551615) =
      .ok 18446744073709551615 ∧
    unboxBool (boxBool true) = .ok true ∧
    unboxBool (boxBool false) = .ok false ∧
    unboxEnum ⟨.tyShort⟩ (boxEnum ⟨.tyShort⟩ (-1)) = .ok (-1) ∧
    unboxOptIntegral .tyInt (boxOptIntegral .tyInt none) = .ok none ∧
    unboxOptIntegral .tyInt (boxOptIntegral .tyInt (some (-2147483648))) =
      .ok (some (-2147483648)) :=
  ⟨C5_roundtrip.1 .tyChar 0 (by decide),
   C5_roundtrip.1 .tyChar (-128) (by decide),
   C5_roundtrip.1 .tyChar 127 (by decide),
   C5_roundtrip.1 .tyChar (-1) (by decide),
   C5_roundtrip.1 .tyInt64 (-9223372036854775808) (by decide),
   C5_roundtrip.1 .tyUInt64 18446744073709551615 (by decide),
   C5_roundtrip.2.1 true,
   C5_roundtrip.2.1 false,
   C5_roundtrip.2.2.1 ⟨.tyShort⟩ (-1) (by decide),
   C5_roundtrip.2.2.2 .tyInt none (by simp),
   C5_roundtrip.2.2.2 .tyInt (some (-2147483648)) (by decide)⟩

/-! ## C6 — regenerable traversal -/

/-- Draining a live, failure-free traversal of a pure native sequence
from position `pos` produces exactly the remaining elements paired with
their linear offsets. -/
lemma drainAux_pure : ∀ (fuel : Nat) (l : List Int) (pos : Nat),
    l.length - pos < fuel →
    drainAux fuel ⟨true, l.map .ok, pos, none⟩ = enumFrom pos (l.drop pos) := by
  intro fuel
  induction fuel with
  | zero => intro l pos h; omega
  | succ k ih =>
    intro l pos h
    by_cases hp : pos < l.length
    · have hget : (l.map (Except.ok : Int → Except Exn Int))[pos]? =
          some (.ok l[pos]) := by
        rw [List.getElem?_map, List.getElem?_eq_getElem hp]; rfl
      have hnext : getNext ⟨true, l.map .ok, pos, none⟩ =
          (.ok l[pos] pos, ⟨true, l.map .ok, pos + 1, none⟩) := by
        simp [getNext, hget]
      rw [List.drop_eq_getElem_cons hp]
      simp only [drainAux, hnext, enumFrom]
      exact congrArg _ (ih l (pos + 1) (by omega))
    · have hge : l.length ≤ pos := by omega
      have hget : (l.map (Except.ok : Int → Except Exn Int))[pos]? = none := by
        rw [List.getElem?_map, List.getElem?_eq_none hge]; rfl
      have hnext : getNext ⟨true, l.map .ok, pos, none⟩ =
          (.endOfSeq, ⟨true, l.map .ok, pos, none⟩) := by
        simp [getNext, hget]
      rw [List.drop_eq_nil_of_le hge]
      simp only [drainAux, hnext, enumFrom]

/-- C6: Traversal over a bound sequence is regenerable: every
`GetIterator` request re-acquires the native sequence through the
generator projection and starts a fresh cursor at its begin (offset 0,
empty sticky slot), so two independent traversals over the same bound
sequence, each fully drained, yield identical ordered element sequences,
and a full drain of a pure sequence enumerates it in order with its
linear indices. -/
theorem C6_regenerable_traversal :
    (∀ it : Iterable, it.flag = true → getIterator it = .ok ⟨true, it.gen, 0, none⟩) ∧
    (∀ (it : Iterable) (st1 st2 : IterState),
        getIterator it = .ok st1 → getIterator it = .ok st2 → drain st1 = drain st2) ∧
    (∀ (l : List Int) (st : IterState),
        getIterator ⟨true, l.map .ok⟩ = .ok st → drain st = enumFrom 0 l) := by
  refine ⟨?_, ?_, ?_⟩
  · intro it h
    simp [getIterator, throwIfDetached, h]
  · intro it st1 st2 h1 h2
    have heq : st1 = st2 := by
      have := h1.symm.trans h2
      exact Except.ok.inj this
    rw [heq]
  · intro l st h
    have hfresh : getIterator (⟨true, l.map .ok⟩ : Iterable) =
        .ok ⟨true, l.map .ok, 0, none⟩ := by
      simp [getIterator, throwIfDetached]
    have hst : st = ⟨true, l.map .ok, 0, none⟩ :=
      Except.ok.inj ((hfresh.symm.trans h).symm)
    subst hst
    show drainAux ((l.map Except.ok).length + 1) _ = enumFrom 0 l
    rw [List.length_map]
    have := drainAux_pure (l.length + 1) l 0 (by omega)
    simpa using this

/-- Closed instantiation of `C6_regenerable_traversal`: the scenario
collection `[10, 20, 30]`, fully drained twice from independently
acquired iterators, yields `(10,0), (20,1), (30,2)` both times. -/
theorem C6_regenerable_traversal_witness :
    (∃ st, getIterator ⟨true, [10, 20, 30].map .ok⟩ = .ok st ∧
      drain st = [(10, 0), (20, 1), (30, 2)]) :=
  ⟨⟨true, [10, 20, 30].map .ok, 0, none⟩,
   C6_regenerable_traversal.1 ⟨true, [10, 20, 30].map .ok⟩ rfl,
   by
    rw [C6_regenerable_traversal.2.2 [10, 20, 30] _
      (C6_regenerable_traversal.1 ⟨true, [10, 20, 30].map .ok⟩ rfl)]
    rfl⟩

/-! ## Signature-analysis lemmas -/

lemma isVarPos_pair : isVariableArgumentPosition [.varSize, .varPtr] = true := rfl

lemma isVarPos_cons_plain (l : List ArgTy) :
    isVariableArgumentPosition (.plain :: l) = false := by
  cases l with
  | nil => rfl
  | cons b rest => cases rest with | nil => cases b <;> rfl | cons c r2 => rfl

lemma isVarPos_cons_opt (l : List ArgTy) :
    isVariableArgumentPosition (.opt :: l) = false := by
  cases l with
  | nil => rfl
  | cons b rest => cases rest with | nil => cases b <;> rfl | cons c r2 => rfl

/-- Prepending one type to a pack of size at least two does not change
whether the pack terminates in the variadic pair. -/
lemma hasVar_cons (t a b : ArgTy) (l : List ArgTy) :
    hasVariableArguments (t :: a :: b :: l) = hasVariableArguments (a :: b :: l) := rfl

lemma hvaWalk_no_varSize : ∀ (rest : List ArgTy) (a b : ArgTy),
    ArgTy.varSize ∉ a :: b :: rest → hvaWalk a b rest = false := by
  intro rest
  induction rest with
  | nil =>
    intro a b h
    show isVariableArgumentPosition [a, b] = false
    cases a with
    | varSize => exact absurd (List.mem_cons_self _ _) h
    | plain => exact isVarPos_cons_plain [b]
    | opt => exact isVarPos_cons_opt [b]
    | varPtr => cases b <;> rfl
  | cons c r ih =>
    intro a b h
    show hvaWalk b c r = false
    exact ih b c (fun hm => h (List.mem_cons_of_mem a hm))

/-- A pack that nowhere mentions `size_t` is not variadic. -/
lemma hasVar_no_varSize (l : List ArgTy) (h : ArgTy.varSize ∉ l) :
    hasVariableArguments l = false := by
  match l with
  | [] => rfl
  | [t] => rfl
  | a :: b :: rest => exact hvaWalk_no_varSize rest a b h

lemma hasOpt_cons (t : ArgTy) (l : List ArgTy) :
    hasOptionalArguments (t :: l) =
      (isOptionalArgument t || hasOptionalArguments l) := by
  cases l with
  | nil => simp [hasOptionalArguments]
  | cons u rest => rfl

lemma hnoa_cons_plain (l : List ArgTy) :
    hasNonOptionalArguments (.plain :: l) = true := by
  cases l with
  | nil => rfl
  | cons u rest =>
    show (if isVariableArgumentPosition (.plain :: u :: rest) then false
          else if isNonOptionalArgument .plain then true
          else hasNonOptionalArguments (u :: rest)) = true
    rw [isVarPos_cons_plain]
    rfl

lemma hnoa_cons_opt (l : List ArgTy) (h : l ≠ []) :
    hasNonOptionalArguments (.opt :: l) = hasNonOptionalArguments l := by
  obtain ⟨u, rest, rfl⟩ := List.exists_cons_of_ne_nil h
  show (if isVariableArgumentPosition (.opt :: u :: rest) then false
        else if isNonOptionalArgument .opt then true
        else hasNonOptionalArguments (u :: rest)) = _
  rw [isVarPos_cons_opt]
  rfl

lemma hnoa_pair : hasNonOptionalArguments [.varSize, .varPtr] = false := rfl

/-- Behind any run of optionals, the variadic pair does not count as a
non-optional argument. -/
lemma hnoa_opts_pair : ∀ j : Nat,
    hasNonOptionalArguments (List.replicate j .opt ++ [.varSize, .varPtr]) = false := by
  intro j
  induction j with
  | zero => exact hnoa_pair
  | succ i ih =>
    rw [List.replicate_succ, List.cons_append, hnoa_cons_opt _ (by simp)]
    exact ih

/-- A nonempty run of optionals contains no non-optional argument. -/
lemma hnoa_opts : ∀ j : Nat,
    hasNonOptionalArguments (List.replicate (j + 1) .opt) = false := by
  intro j
  induction j with
  | zero => rfl
  | succ i ih =>
    rw [List.replicate_succ, hnoa_cons_opt _ (by simp)]
    exact ih

/-- A required (`plain`) slot behind a run of optionals is a
non-optional argument. -/
lemma hnoa_opts_plain : ∀ (j : Nat) (rest : List ArgTy),
    hasNonOptionalArguments (List.replicate j .opt ++ .plain :: rest) = true := by
  intro j
  induction j with
  | zero => intro rest; exact hnoa_cons_plain rest
  | succ i ih =>
    intro rest
    rw [List.replicate_succ, List.cons_append, hnoa_cons_opt _ (by simp)]
    exact ih rest

lemma asserts_cons_nonopt (t : ArgTy) (ht : isOptionalArgument t = false)
    (l : List ArgTy) :
    optionalOrderingAsserts (t :: l) = optionalOrderingAsserts l := by
  cases l with
  | nil => simp [optionalOrderingAsserts]
  | cons u rest =>
    show ((!isOptionalArgument t || !hasNonOptionalArguments (u :: rest)) &&
        optionalOrderingAsserts (u :: rest)) = _
    rw [ht]
    rfl

lemma asserts_cons_opt (l : List ArgTy) (h : l ≠ []) :
    optionalOrderingAsserts (.opt :: l) =
      (!hasNonOptionalArguments l && optionalOrderingAsserts l) := by
  obtain ⟨u, rest, rfl⟩ := List.exists_cons_of_ne_nil h
  show ((!isOptionalArgument .opt || !hasNonOptionalArguments (u :: rest)) &&
      optionalOrderingAsserts (u :: rest)) = _
  rfl

lemma firstOpt_plains (k : Nat) (rest : List ArgTy) :
    firstOptionalArgumentPosition (List.replicate k .plain ++ rest) =
      k + firstOptionalArgumentPosition rest := by
  induction k with
  | zero => simp
  | succ i ih =>
    rw [List.replicate_succ, List.cons_append]
    show 1 + firstOptionalArgumentPosition (List.replicate i .plain ++ rest) = _
    rw [ih]
    omega

lemma hasOpt_plains (k : Nat) (rest : List ArgTy) :
    hasOptionalArguments (List.replicate k .plain ++ rest) =
      hasOptionalArguments rest := by
  induction k with
  | zero => simp
  | succ i ih =>
    rw [List.replicate_succ, List.cons_append, hasOpt_cons]
    simpa [isOptionalArgument] using ih

lemma hasOpt_opts (m : Nat) (rest : List ArgTy) :
    hasOptionalArguments (List.replicate (m + 1) .opt ++ rest) = true := by
  rw [List.replicate_succ, List.cons_append, hasOpt_cons]
  rfl

lemma hasOpt_pair : hasOptionalArguments [.varSize, .varPtr] = false := rfl

lemma hvaWalk_pair : ∀ (r : List ArgTy) (a b : ArgTy),
    hvaWalk a b (r ++ [.varSize, .varPtr]) = true := by
  intro r
  induction r with
  | nil => intro a b; rfl
  | cons c r2 ih => intro a b; exact ih b c

/-- Any pack terminating in the `(size_t, Object *)` pair is variadic. -/
lemma hasVar_append_pair : ∀ pre : List ArgTy,
    hasVariableArguments (pre ++ [.varSize, .varPtr]) = true := by
  intro pre
  match pre with
  | [] => rfl
  | [t] => rfl
  | t :: u :: r => exact hvaWalk_pair r t u

/-- The canonical signature re-associated to expose its three runs. -/
lemma canonSig_assoc (k m : Nat) (va : Bool) :
    canonSig k m va =
      List.replicate k ArgTy.plain ++ (List.replicate m ArgTy.opt ++
        (if va then [ArgTy.varSize, ArgTy.varPtr] else [])) := by
  simp [canonSig, List.append_assoc]

lemma canonSig_length (k m : Nat) (va : Bool) :
    (canonSig k m va).length = k + m + (if va then 2 else 0) := by
  cases va with
  | false => simp [canonSig]
  | true => simp [canonSig]; omega

lemma canonSig_hasVar (k m : Nat) (va : Bool) :
    hasVariableArguments (canonSig k m va) = va := by
  cases va with
  | false =>
    apply hasVar_no_varSize
    simp [canonSig, List.mem_append, List.mem_replicate]
  | true =>
    show hasVariableArguments
      ((List.replicate k ArgTy.plain ++ List.replicate m ArgTy.opt) ++
        (if true then [ArgTy.varSize, ArgTy.varPtr] else [])) = true
    exact hasVar_append_pair _

lemma canonSig_hasOpt (k m : Nat) (va : Bool) :
    hasOptionalArguments (canonSig k m va) = decide (0 < m) := by
  rw [canonSig_assoc, hasOpt_plains]
  cases m with
  | zero => cases va <;> rfl
  | succ m2 => rw [hasOpt_opts]; simp

lemma canonSig_packMatchingSize (k m : Nat) (va : Bool) :
    packMatchingSize (canonSig k m va) = k := by
  unfold packMatchingSize
  rw [canonSig_hasOpt, canonSig_hasVar, canonSig_length]
  cases m with
  | zero =>
    simp only [decide_eq_true_eq]
    rw [if_neg (by omega)]
    cases va with
    | true => simp
    | false => simp
  | succ m2 =>
    rw [if_pos (by simp)]
    rw [canonSig_assoc, firstOpt_plains, List.replicate_succ, List.cons_append]
    show k + firstOptionalArgumentPosition (ArgTy.opt :: _) = k
    show k + 0 = k
    omega

/-! ## Unpacking lemmas -/

/-- An untouched slot holds the same value the unpacker would assign
from a missing argument. -/
lemma defaultSlot_eq_regular_none (t : ArgTy) : defaultSlot t = regularSlot t none := by
  cases t <;> rfl

/-- One step of the unpacker on a required or optional slot. -/
lemma unpack_cons_reg (t : ArgTy) (hpo : t = ArgTy.plain ∨ t = ArgTy.opt)
    (args : List Nat) (i : Nat) (rest : List ArgTy) :
    unpackSlotsAux args i (t :: rest) =
      regularSlot t args[i]? :: unpackSlotsAux args (i + 1) rest := by
  rcases hpo with rfl | rfl
  · show (if i < args.length then regularSlot .plain args[i]? else defaultSlot .plain) :: _ = _
    congr 1
    by_cases hi : i < args.length
    · rw [if_pos hi]
    · rw [if_neg hi, List.getElem?_eq_none (by omega)]
      rfl
  · show (if i < args.length then regularSlot .opt args[i]? else defaultSlot .opt) :: _ = _
    congr 1
    by_cases hi : i < args.length
    · rw [if_pos hi]
    · rw [if_neg hi, List.getElem?_eq_none (by omega)]
      rfl

/-- The unpacker walks a run of `k` required/optional slots, assigning
each from the argument at its own index, then continues behind the run. -/
lemma unpack_replicate (t : ArgTy) (hpo : t = ArgTy.plain ∨ t = ArgTy.opt) :
    ∀ (k : Nat) (args : List Nat) (i : Nat) (rest : List ArgTy),
    unpackSlotsAux args i (List.replicate k t ++ rest) =
      slotRun args t i k ++ unpackSlotsAux args (i + k) rest := by
  intro k
  induction k with
  | zero => intro args i rest; simp [slotRun]
  | succ k2 ih =>
    intro args i rest
    rw [List.replicate_succ, List.cons_append, unpack_cons_reg t hpo, ih args (i + 1) rest]
    show _ = (regularSlot t args[i]? :: slotRun args t (i + 1) k2) ++ _
    rw [List.cons_append]
    have harith : i + 1 + k2 = i + (k2 + 1) := by omega
    rw [harith]

/-- `VariableUnpacker` on the trailing pair: the count slot always holds
the truncated remaining count; the view slot points at offset `j` of the
original array exactly when at least one variadic argument remains. -/
lemma unpack_pair (args : List Nat) (j : Nat) :
    unpackSlotsAux args j [.varSize, .varPtr] =
      [.varCountV (args.length - j),
       .varViewV (if args.length ≤ j then none else some j)] := by
  show (if j ≥ args.length then _ else _) = _
  by_cases hj : args.length ≤ j
  · rw [if_pos hj, if_pos hj]
    have h0 : args.length - j = 0 := by omega
    rw [h0]
  · rw [if_neg hj, if_neg hj]

lemma slotRun_length (args : List Nat) (t : ArgTy) :
    ∀ (k i : Nat), (slotRun args t i k).length = k := by
  intro k
  induction k with
  | zero => intro i; rfl
  | succ k2 ih => intro i; simp [slotRun, ih]

lemma slotRun_getElem (args : List Nat) (t : ArgTy) :
    ∀ (k j i : Nat), j < k →
      (slotRun args t i k)[j]? = some (regularSlot t args[i + j]?) := by
  intro k
  induction k with
  | zero => intro j i hj; omega
  | succ k2 ih =>
    intro j i hj
    cases j with
    | zero =>
      show (regularSlot t args[i]? :: slotRun args t (i + 1) k2)[0]? = _
      simp
    | succ j2 =>
      show (regularSlot t args[i]? :: slotRun args t (i + 1) k2)[j2 + 1]? = _
      rw [List.getElem?_cons_succ, ih j2 (i + 1) (by omega)]
      have harith : i + 1 + j2 = i + (j2 + 1) := by omega
      rw [harith]

/-- Full decomposition of unpacking a validated pack into the canonical
signature's slots. -/
lemma unpack_canon (k m : Nat) (va : Bool) (args : List Nat) :
    unpackSlots args (canonSig k m va) =
      slotRun args .plain 0 k ++ (slotRun args .opt k m ++
        (if va then
          [SlotVal.varCountV (args.length - (k + m)),
           SlotVal.varViewV (if args.length ≤ k + m then none else some (k + m))]
         else [])) := by
  rw [canonSig_assoc]
  unfold unpackSlots
  rw [unpack_replicate .plain (Or.inl rfl) k args 0 _]
  simp only [Nat.zero_add]
  rw [unpack_replicate .opt (Or.inr rfl) m args k _]
  congr 1
  congr 1
  cases va with
  | true => exact unpack_pair args (k + m)
  | false => rfl

/-- Required slot `i < k` of the canonical signature receives the
`i`-th dynamic argument (or its default when the argument is absent). -/
lemma unpack_canon_plainSlot (k m : Nat) (va : Bool) (args : List Nat)
    (i : Nat) (hi : i < k) :
    (unpackSlots args (canonSig k m va))[i]? = some (.plainV args[i]?) := by
  rw [unpack_canon]
  simp only [List.getElem?_append, slotRun_length]
  rw [if_pos hi, slotRun_getElem args .plain k i 0 hi]
  simp [regularSlot]

/-- Optional slot `i` (with `k ≤ i < k + m`) receives the `i`-th dynamic
argument when present and stays `std::nullopt` otherwise. -/
lemma unpack_canon_optSlot (k m : Nat) (va : Bool) (args : List Nat)
    (i : Nat) (h1 : k ≤ i) (h2 : i < k + m) :
    (unpackSlots args (canonSig k m va))[i]? = some (.optV args[i]?) := by
  rw [unpack_canon]
  simp only [List.getElem?_append, slotRun_length]
  rw [if_neg (by omega), if_pos (by omega),
    slotRun_getElem args .opt m (i - k) k (by omega)]
  have harith : k + (i - k) = i := by omega
  rw [harith]
  rfl

/-- The count slot of the trailing pair holds the truncated remaining
argument count. -/
lemma unpack_canon_count (k m : Nat) (args : List Nat) :
    (unpackSlots args (canonSig k m true))[k + m]? =
      some (.varCountV (args.length - (k + m))) := by
  rw [unpack_canon]
  simp only [List.getElem?_append, slotRun_length]
  rw [if_neg (by omega), if_neg (by omega)]
  have h1 : k + m - k = m := by omega
  simp only [h1]
  have h2 : m - m = 0 := by omega
  rw [h2]
  rfl

/-- The view slot of the trailing pair points at offset `k + m` of the
original argument array exactly when at least one variadic argument was
supplied; otherwise it keeps its default (null). -/
lemma unpack_canon_view (k m : Nat) (args : List Nat) :
    (unpackSlots args (canonSig k m true))[k + m + 1]? =
      some (.varViewV (if args.length ≤ k + m then none else some (k + m))) := by
  rw [unpack_canon]
  simp only [List.getElem?_append, slotRun_length]
  rw [if_neg (by omega), if_neg (by omega)]
  have h1 : k + m + 1 - k = m + 1 := by omega
  simp only [h1]
  have h2 : m + 1 - m = 1 := by omega
  rw [h2]
  rfl

/-! ## C3 — argument-count validation -/

/-- C3: For a bound function classified into `k` required slots, `m`
optional slots and optionally a trailing variadic pair: fewer than `k`
dynamic arguments raises `std::invalid_argument` ("Illegal number of
arguments to method call"); every count in `k..k+m` passes validation and
the call proceeds to unpacking; a count above `k+m` raises
invalid-argument unless the signature is variadic, in which case any
count at least `k` is accepted and the variadic count slot receives
exactly `argCount - k - m` (truncated at zero). -/
theorem C3_arity_validation :
    ∀ (k m : Nat) (va : Bool) (args : List Nat),
      (args.length < k →
        invokeFromPack (canonSig k m va) args =
          .error (.invalidArgument "Illegal number of arguments to method call")) ∧
      (k ≤ args.length → args.length ≤ k + m →
        invokeFromPack (canonSig k m va) args =
          .ok (unpackSlots args (canonSig k m va))) ∧
      (va = false → k + m < args.length →
        invokeFromPack (canonSig k m va) args =
          .error (.invalidArgument "Illegal number of arguments to method call")) ∧
      (va = true → k ≤ args.length →
        invokeFromPack (canonSig k m va) args =
          .ok (unpackSlots args (canonSig k m va)) ∧
        (unpackSlots args (canonSig k m va))[k + m]? =
          some (.varCountV (args.length - (k + m)))) := by
  intro k m va args
  have hmin := canonSig_packMatchingSize k m va
  have hlen := canonSig_length k m va
  have hvar := canonSig_hasVar k m va
  cases va with
  | false =>
    simp at hlen
    refine ⟨?_, ?_, ?_, ?_⟩
    · intro h
      unfold invokeFromPack
      rw [hmin, hlen, hvar]
      rw [if_pos (by simp [h])]
    · intro h1 h2
      unfold invokeFromPack
      rw [hmin, hlen, hvar]
      rw [if_neg (by simp; omega)]
    · intro _ h2
      unfold invokeFromPack
      rw [hmin, hlen, hvar]
      rw [if_pos (by simp; omega)]
    · intro hva
      exact absurd hva (by simp)
  | true =>
    simp at hlen
    refine ⟨?_, ?_, ?_, ?_⟩
    · intro h
      unfold invokeFromPack
      rw [hmin, hlen, hvar]
      rw [if_pos (by simp [h])]
    · intro h1 h2
      unfold invokeFromPack
      rw [hmin, hlen, hvar]
      rw [if_neg (by simp; omega)]
    · intro hva
      exact absurd hva (by simp)
    · intro _ h1
      refine ⟨?_, unpack_canon_count k m args⟩
      unfold invokeFromPack
      rw [hmin, hlen, hvar]
      rw [if_neg (by simp; omega)]

/-- Closed instantiation of `C3_arity_validation` for a signature with
two required slots, one optional slot, with and without varargs. -/
theorem C3_arity_validation_witness :
    invokeFromPack (canonSig 2 1 false) [5] =
      .error (.invalidArgument "Illegal number of arguments to method call") ∧
    invokeFromPack (canonSig 2 1 false) [5, 6] =
      .ok (unpackSlots [5, 6] (canonSig 2 1 false)) ∧
    invokeFromPack (canonSig 2 1 false) [5, 6, 7] =
      .ok (unpackSlots [5, 6, 7] (canonSig 2 1 false)) ∧
    invokeFromPack (canonSig 2 1 false) [5, 6, 7, 8] =
      .error (.invalidArgument "Illegal number of arguments to method call") ∧
    invokeFromPack (canonSig 2 1 true) [5, 6, 7, 8, 9] =
      .ok (unpackSlots [5, 6, 7, 8, 9] (canonSig 2 1 true)) ∧
    (unpackSlots [5, 6, 7, 8, 9] (canonSig 2 1 true))[2 + 1]? =
      some (.varCountV ([5, 6, 7, 8, 9].length - (2 + 1))) :=
  ⟨(C3_arity_validation 2 1 false [5]).1 (by decide),
   (C3_arity_validation 2 1 false [5, 6]).2.1 (by decide) (by decide),
   (C3_arity_validation 2 1 false [5, 6, 7]).2.1 (by decide) (by decide),
   (C3_arity_validation 2 1 false [5, 6, 7, 8]).2.2.1 rfl (by decide),
   ((C3_arity_validation 2 1 true [5, 6, 7, 8, 9]).2.2.2 rfl (by decide)).1,
   ((C3_arity_validation 2 1 true [5, 6, 7, 8, 9]).2.2.2 rfl (by decide)).2⟩

/-! ## C7 — slot unpacking -/

/-- C7 counterexample: for a purely variadic signature invoked with zero
arguments (a count the validator accepts), `VariableUnpacker` returns
early and the tail slot keeps its default-constructed null view — it is
*not* a pointer into the original argument array at offset 0 as the
claim states. -/
theorem C7_variadic_view_counterexample :
    invokeFromPack [ArgTy.varSize, ArgTy.varPtr] [] =
      .ok [.varCountV 0, .varViewV none] ∧
    (unpackSlots [] [ArgTy.varSize, ArgTy.varPtr])[1]? = some (.varViewV none) ∧
    SlotVal.varViewV none ≠ SlotVal.varViewV (some 0) := by
  decide

/-- C7 (amended): when unpacking a dynamic argument pack into the
canonical static slots, each required slot `i < k` receives the unboxed
`i`-th dynamic argument when `i` is below the supplied count (its default
otherwise); an optional slot with no corresponding dynamic argument stays
absent (`std::nullopt`) and never causes an error; the trailing variadic
pair receives the truncated remaining count `argCount - k - m` in its
count slot and, **when at least one variadic argument is supplied**, a
zero-copy view into the original argument array at offset `k + m` in its
tail slot — with no variadic argument remaining the tail slot keeps its
default null view. -/
theorem C7_slot_unpacking :
    ∀ (k m : Nat) (va : Bool) (args : List Nat),
      (∀ i, i < k →
        (unpackSlots args (canonSig k m va))[i]? = some (.plainV args[i]?)) ∧
      (∀ i, k ≤ i → i < k + m →
        (unpackSlots args (canonSig k m va))[i]? = some (.optV args[i]?)) ∧
      (va = true →
        (unpackSlots args (canonSig k m va))[k + m]? =
          some (.varCountV (args.length - (k + m))) ∧
        (unpackSlots args (canonSig k m va))[k + m + 1]? =
          some (.varViewV (if args.length ≤ k + m then none else some (k + m)))) := by
  intro k m va args
  refine ⟨fun i hi => unpack_canon_plainSlot k m va args i hi,
          fun i h1 h2 => unpack_canon_optSlot k m va args i h1 h2, ?_⟩
  intro hva
  subst hva
  exact ⟨unpack_canon_count k m args, unpack_canon_view k m args⟩

/-- Closed instantiation of `C7_slot_unpacking`. -/
theorem C7_slot_unpacking_witness :
    (unpackSlots [5, 6, 7, 8] (canonSig 2 2 true))[0]? =
      some (.plainV ([5, 6, 7, 8] : List Nat)[0]?) ∧
    (unpackSlots [5, 6, 7, 8] (canonSig 2 2 true))[2]? =
      some (.optV ([5, 6, 7, 8] : List Nat)[2]?) ∧
    (unpackSlots [5, 6] (canonSig 2 2 true))[3]? =
      some (.optV ([5, 6] : List Nat)[3]?) ∧
    (unpackSlots [5, 6, 7, 8, 9] (canonSig 2 2 true))[2 + 2]? =
      some (.varCountV ([5, 6, 7, 8, 9].length - (2 + 2))) ∧
    (unpackSlots [5, 6, 7, 8, 9] (canonSig 2 2 true))[2 + 2 + 1]? =
      some (.varViewV (if ([5, 6, 7, 8, 9] : List Nat).length ≤ 2 + 2
        then none else some (2 + 2))) :=
  ⟨(C7_slot_unpacking 2 2 true [5, 6, 7, 8]).1 0 (by decide),
   (C7_slot_unpacking 2 2 true [5, 6, 7, 8]).2.1 2 (by decide) (by decide),
   (C7_slot_unpacking 2 2 true [5, 6]).2.1 3 (by decide) (by decide),
   ((C7_slot_unpacking 2 2 true [5, 6, 7, 8, 9]).2.2 rfl).1,
   ((C7_slot_unpacking 2 2 true [5, 6, 7, 8, 9]).2.2 rfl).2⟩

/-! ## C9 — optional-ordering rejection happens at binding declaration -/

lemma asserts_plains (k : Nat) (rest : List ArgTy) :
    optionalOrderingAsserts (List.replicate k .plain ++ rest) =
      optionalOrderingAsserts rest := by
  induction k with
  | zero => simp
  | succ k2 ih =>
    rw [List.replicate_succ, List.cons_append, asserts_cons_nonopt .plain rfl]
    exact ih

/-- A declared signature placing a required slot after an optional one
(before any trailing pair) fails the `static_assert` cascade. -/
lemma asserts_bad : ∀ (k j : Nat) (rest : List ArgTy),
    optionalOrderingAsserts (List.replicate k .plain ++ .opt ::
      (List.replicate j .opt ++ .plain :: rest)) = false := by
  intro k j rest
  rw [asserts_plains]
  rw [asserts_cons_opt _ (by simp)]
  rw [hnoa_opts_plain j rest]
  rfl

lemma asserts_opts : ∀ m : Nat,
    optionalOrderingAsserts (List.replicate m .opt) = true := by
  intro m
  induction m with
  | zero => rfl
  | succ m2 ih =>
    cases m2 with
    | zero => rfl
    | succ m3 =>
      rw [List.replicate_succ, asserts_cons_opt _ (by simp), hnoa_opts m3, ih]
      rfl

lemma asserts_opts_pair : ∀ m : Nat,
    optionalOrderingAsserts (List.replicate m .opt ++ [.varSize, .varPtr]) = true := by
  intro m
  induction m with
  | zero => rfl
  | succ m2 ih =>
    rw [List.replicate_succ, List.cons_append, asserts_cons_opt _ (by simp),
      hnoa_opts_pair m2, ih]
    rfl

/-- The canonical well-ordered signatures pass every `static_assert`. -/
lemma asserts_canon (k m : Nat) (va : Bool) :
    optionalOrderingAsserts (canonSig k m va) = true := by
  rw [canonSig_assoc, asserts_plains]
  cases va with
  | false =>
    rw [show (if (false : Bool) then [ArgTy.varSize, ArgTy.varPtr] else []) =
        ([] : List ArgTy) from rfl, List.append_nil]
    exact asserts_opts m
  | true =>
    rw [show (if (true : Bool) then [ArgTy.varSize, ArgTy.varPtr] else []) =
        [ArgTy.varSize, ArgTy.varPtr] from rfl]
    exact asserts_opts_pair m

/-- C9: A signature declaring a required slot after an optional one
(other than the trailing variadic capture pair) fails the
`static_assert` evaluated when the binding template is instantiated, so
the binding is rejected at declaration and no call against it can exist;
well-ordered canonical signatures are accepted at declaration; and the
call-time validator can only ever raise the argument-count error — the
ordering violation is never reported at call time. -/
theorem C9_ordering_rejected_at_bind :
    (∀ (k j : Nat) (rest : List ArgTy),
        declareBinding (List.replicate k .plain ++ .opt ::
          (List.replicate j .opt ++ .plain :: rest)) = none) ∧
    (∀ (k m : Nat) (va : Bool),
        declareBinding (canonSig k m va) =
          some (k, (canonSig k m va).length, va)) ∧
    (∀ (l : List ArgTy) (args : List Nat) (e : Exn),
        invokeFromPack l args = .error e →
        e = .invalidArgument "Illegal number of arguments to method call") := by
  refine ⟨?_, ?_, ?_⟩
  · intro k j rest
    unfold declareBinding
    rw [asserts_bad]
    rfl
  · intro k m va
    unfold declareBinding
    rw [asserts_canon]
    rw [if_pos rfl, canonSig_packMatchingSize, canonSig_hasVar]
  · intro l args e h
    unfold invokeFromPack at h
    split at h
    · exact (Except.error.inj h).symm
    · exact absurd h (by simp)

/-- Closed instantiation of `C9_ordering_rejected_at_bind`. -/
theorem C9_ordering_rejected_at_bind_witness :
    declareBinding (List.replicate 1 .plain ++ .opt ::
      (List.replicate 0 .opt ++ .plain :: [])) = none ∧
    declareBinding (canonSig 1 1 true) =
      some (1, (canonSig 1 1 true).length, true) ∧
    (.invalidArgument "Illegal number of arguments to method call" : Exn) =
      .invalidArgument "Illegal number of arguments to method call" :=
  ⟨C9_ordering_rejected_at_bind.1 1 0 [],
   C9_ordering_rejected_at_bind.2.1 1 1 true,
   C9_ordering_rejected_at_bind.2.2 [ArgTy.plain] []
     (.invalidArgument "Illegal number of arguments to method call") (by decide)⟩

end DbgModel
